import Mathlib

/-!
Verification of the OpenPulse ODE right-hand-side code generator
(`openpulse/solver/codegen.py`): a shallow embedding of the Cython source
emitter `OPCodegen` together with proofs about the emitted artifact.

Conventions of the embedding:
* A Python string is a Lean `String`; `"%d" % k` and `"%s" % k` on an `int`
  are `Nat.repr k`; `"%s" % x` on `term[1]` (which may be `None`) is `pyStr`.
* A Hamiltonian term of `op_system.system` is discriminated by the source via
  `isinstance(term, list)` and by the truthiness of `term[1]`; we model it as a
  `Bool` flag (list vs. tuple) plus an `Option String` (`none` = Python `None`,
  `some s` = the string `s`; truthiness is `pyTruthy`).
* `op_system.channels` and `op_system.vars` are Python 3.7 dicts traversed in
  insertion order; we model them as association lists in insertion order.
* File/stdout effects: `generate` returns the written file as a
  `FileWrite` value; the `SyntaxError` raised by `dedent` is `Except.error`.
-/

namespace AerCodegen

/-- One entry of `op_system.system`.  `isList` models `isinstance(term, list)`;
`td` models `term[1]`, the optional time-dependence expression string
(`none` = Python `None`). -/
structure HamTerm where
  isList : Bool
  td : Option String
deriving DecidableEq

/-- The model description consumed by `OPCodegen`: the ordered Hamiltonian
term list `system`, the channel dict (name, index; insertion order), the
free-variable dict keys (insertion order) and the sample step `dt`. -/
structure OpSystem where
  system : List HamTerm
  channels : List (String × Nat)
  vars : List String
  dt : ℚ
deriving DecidableEq

/-- Python truthiness of `term[1]`: `None` and `""` are falsy. -/
def pyTruthy : Option String → Bool
  | none => false
  | some s => !(s == "")

/-- Python `"%s"` rendering of `term[1]`. -/
def pyStr : Option String → String
  | none => "None"
  | some s => s

/-- `enumerate` of Python, starting at `n`. -/
def enumFrom {α : Type} (n : Nat) : List α → List (Nat × α)
  | [] => []
  | x :: xs => (n, x) :: enumFrom (n + 1) xs

/-- Concatenation of the strings `f x` over a list, in order. -/
def catMap {α : Type} (f : α → String) : List α → String
  | [] => ""
  | x :: xs => f x ++ catMap f xs

/-- Python `s * n` for a string (used for `"    " * self.level`). -/
def strRepeat (s : String) : Nat → String
  | 0 => ""
  | n + 1 => s ++ strRepeat s n

/-! ## The emitter state (`self.code`, `self.level`) -/

/-- The mutable state of an `OPCodegen` instance: the accumulated lines
`self.code` and the indentation level `self.level`.  A fresh instance starts
with `code = []`, `level = 0` (see `__init__`). -/
structure GenState where
  code : List String
  level : Nat
deriving DecidableEq

/-- `OPCodegen.__init__`: `self.code = []`, `self.level = 0`. -/
def OPCodegen.init : GenState := { code := [], level := 0 }

/-- `OPCodegen.write`: append `"    " * self.level + string + "\n"` to
`self.code`. -/
def OPCodegen.write (st : GenState) (string : String) : GenState :=
  { st with code := st.code ++ [strRepeat "    " st.level ++ string ++ "\n"] }

/-- Write each line of a list in order (the `for line in ...: self.write(line)`
loops of `generate`). -/
def OPCodegen.writeAll (st : GenState) (lines : List String) : GenState :=
  lines.foldl OPCodegen.write st

/-- `OPCodegen.indent`: increase indentation level by one. -/
def OPCodegen.indent (st : GenState) : GenState :=
  { st with level := st.level + 1 }

/-- `OPCodegen.dedent`: decrease indentation level by one; raises
`SyntaxError("Error in code generator")` when the level is `0`. -/
def OPCodegen.dedent (st : GenState) : Except String GenState :=
  if st.level = 0 then Except.error "Error in code generator"
  else Except.ok { st with level := st.level - 1 }

/-! ## The emitted text -/

/-- `_include_string = "'" + _cython_path + "complex_math.pxi'"`; the
environment-dependent `_cython_path` is a parameter. -/
def includeString (cythonPath : String) : String :=
  "\x27" ++ cythonPath ++ "complex_math.pxi\x27"

/-- `cython_preamble()`: the fixed preamble, one multi-line string, ending in
the `include` line built from `_include_string` (here the parameter `inc`). -/
def cython_preamble (inc : String) : List String :=
  ["#!python\n#cython: language_level=3\n# This code is part of Qiskit.\n#\n# (C) Copyright IBM 2019.\n#\n# This code is licensed under the Apache License, Version 2.0. You may\n# obtain a copy of this license in the LICENSE.txt file in the root directory\n# of this source tree or at http://www.apache.org/licenses/LICENSE-2.0.\n#\n# Any modifications or derivative works of this code must retain this\n# copyright notice, and modified files need to carry a notice indicating\n# that they have been altered from the originals.\n\nimport numpy as np\ncimport numpy as np\ncimport cython\nnp.import_array()\ncdef extern from \"numpy/arrayobject.h\" nogil:\n    void PyDataMem_NEW_ZEROED(size_t size, size_t elsize)\n    void PyArray_ENABLEFLAGS(np.ndarray arr, int flags)\n\nfrom qutip.cy.spmatfuncs cimport spmvpy\nfrom qutip.cy.math cimport erf\nfrom libc.math cimport pi\n\nfrom openpulse.cython.channel_value cimport channel_value\n\ninclude "
    ++ inc ++ "\n"]

/-- `cython_checks()`: the decorator block disabling Cython runtime checks. -/
def cython_checks : List String :=
  ["@cython.cdivision(True)\n@cython.boundscheck(False)\n@cython.wraparound(False)"]

/-- `OPCodegen.ODE_func_header`: builds the (single-element) list holding the
full `def cy_td_ode_rhs(...):` header string by successive concatenation,
exactly as the source does. -/
def OPCodegen.ODE_func_header (s : OpSystem) : List String :=
  let func_name := "def cy_td_ode_rhs("
  let input_vars := "\n        double t" ++ ",\n        complex[::1] vec"
  let input_vars := (List.range s.system.length).foldl (fun acc k =>
    acc ++ (",\n        " ++ "complex[::1] data" ++ Nat.repr k ++ ", " ++
            "int[::1] idx" ++ Nat.repr k ++ ", " ++
            "int[::1] ptr" ++ Nat.repr k)) input_vars
  let input_vars := input_vars ++ (",\n        " ++ "complex[::1] pulse_array")
  let input_vars := input_vars ++ (",\n        " ++ "unsigned int[::1] pulse_indices")
  let input_vars := s.channels.foldl (fun acc p =>
    acc ++ (",\n        " ++ "double[::1] " ++ p.1 ++ "_pulses")
        ++ (",\n        " ++ "double[::1] " ++ p.1 ++ "_fc")) input_vars
  let input_vars := s.vars.foldl (fun acc key =>
    acc ++ (",\n        " ++ "complex " ++ key)) input_vars
  let input_vars := input_vars ++ (",\n        " ++ "unsigned char[::1] register")
  let func_end := "):"
  [func_name ++ input_vars ++ func_end]

/-- The channel-evaluation statement emitted by `OPCodegen.channels` for the
channel `(chan, idx)`. -/
def chanStmt (chan : String) (idx : Nat) : String :=
  chan ++ " = channel_value(t, " ++ Nat.repr idx ++ ", " ++
  chan ++ "_pulses,  pulse_array, pulse_indices, " ++
  chan ++ "_fc, register)"

/-- `OPCodegen.channels`: one `channel_value` assignment per channel of the
dict, in insertion order, framed by a blank line, a comment and a blank line. -/
def OPCodegen.channels (s : OpSystem) : List String :=
  let channel_lines : List String := [""]
  let channel_lines := channel_lines ++ ["# Compute complex channel values at time \x60t\x60"]
  let channel_lines := s.channels.foldl (fun acc p =>
    acc ++ [chanStmt p.1 p.2]) channel_lines
  channel_lines ++ [""]

/-- The `spmvpy(...)` accumulation statement for term `i` with the textual
coefficient `coeff` (`"td<i>"` or `"1.0"`), as formatted by `func_vars`. -/
def spmvLine (i : Nat) (coeff : String) : String :=
  "spmvpy(&data" ++ Nat.repr i ++ "[0], &idx" ++ Nat.repr i ++ "[0], &ptr" ++
  Nat.repr i ++ "[0], " ++ "&vec[0], " ++ coeff ++ ", &out[0], num_rows)"

/-- The lines `OPCodegen.func_vars` contributes for the enumerated term
`(i, term)`: for a time-dependent term (a list, or truthy `term[1]`) the
`td<i>` assignment, the `1e-15` guard and the indented guarded accumulation;
otherwise the single unguarded accumulation with coefficient `1.0`. -/
def termStmtLines (it : Nat × HamTerm) : List String :=
  if it.2.isList || pyTruthy it.2.td then
    ["td" ++ Nat.repr it.1 ++ " = " ++ pyStr it.2.td] ++
    ["if abs(td" ++ Nat.repr it.1 ++ ") > 1e-15:"] ++
    ["    " ++ spmvLine it.1 ("td" ++ Nat.repr it.1)]
  else
    [spmvLine it.1 "1.0"]

/-- `OPCodegen.func_vars`: the comment line followed by, for each enumerated
term, the statements of `termStmtLines`. -/
def OPCodegen.func_vars (s : OpSystem) : List String :=
  let func_vars : List String := []
  let func_vars := func_vars ++ ["# Eval the time-dependent terms and do SPMV."]
  (enumFrom 0 s.system).foldl (fun acc it =>
    if it.2.isList || pyTruthy it.2.td then
      acc ++ ["td" ++ Nat.repr it.1 ++ " = " ++ pyStr it.2.td]
          ++ ["if abs(td" ++ Nat.repr it.1 ++ ") > 1e-15:"]
          ++ ["    " ++ spmvLine it.1 ("td" ++ Nat.repr it.1)]
    else
      acc ++ [spmvLine it.1 "1.0"]) func_vars

/-- `OPCodegen.func_end`: the epilogue wrapping `out` into a NumPy array that
owns the buffer, and returning it. -/
def OPCodegen.func_end : List String :=
  let end_str : List String := [""]
  let end_str := end_str ++ ["# Convert to NumPy array, grab ownership, and return."]
  let end_str := end_str ++ ["cdef np.npy_intp dims = num_rows"]
  let temp_str := "cdef np.ndarray[complex, ndim=1, mode=\x27c\x27] arr_out = " ++
    "np.PyArray_SimpleNewFromData(1, &dims, np.NPY_COMPLEX128, out)"
  let end_str := end_str ++ [temp_str]
  let end_str := end_str ++ ["PyArray_ENABLEFLAGS(arr_out, np.NPY_OWNDATA)"]
  end_str ++ ["return arr_out"]

/-- Module-level `func_header(op_system)`: the local declarations of the
generated function body (`row`, `num_rows`, the zeroed `out` buffer, one
complex local per channel, one `td<i>` local per term with truthy `term[1]`). -/
def func_header (s : OpSystem) : List String :=
  let func_vars := ["", "cdef size_t row", "cdef unsigned int num_rows = vec.shape[0]",
    "cdef double complex * " ++
    "out = <complex *>PyDataMem_NEW_ZEROED(num_rows,sizeof(complex))"]
  let func_vars := func_vars ++ [""]
  let func_vars := s.channels.foldl (fun acc p =>
    acc ++ ["cdef double complex " ++ p.1]) func_vars
  let func_vars := (enumFrom 0 s.system).foldl (fun acc it =>
    if pyTruthy it.2.td then acc ++ ["cdef double complex td" ++ Nat.repr it.1]
    else acc) func_vars
  func_vars

/-- The result of the file write performed at the end of `generate`:
`self.file(filename); self._file.writelines(self.code); self._file.close()`. -/
structure FileWrite where
  name : String
  contents : List String
deriving DecidableEq

/-- `OPCodegen.generate(filename)`: write the preamble, the check decorators
and the function header at the current level, indent, write the body blocks,
dedent, write `self.code` to `filename`, and increment the process-wide
counter `op_set.CGEN_NUM` (threaded here as `cgenNum`).  The default of the
`filename` parameter in the source is `"rhs.pyx"`. -/
def OPCodegen.generate (inc : String) (s : OpSystem) (st : GenState)
    (cgenNum : Nat) (filename : String) :
    Except String (GenState × Nat × FileWrite) := do
  let st := OPCodegen.writeAll st (cython_preamble inc)
  let st := OPCodegen.writeAll st (cython_checks ++ OPCodegen.ODE_func_header s)
  let st := OPCodegen.indent st
  let st := OPCodegen.writeAll st (func_header s)
  let st := OPCodegen.writeAll st (OPCodegen.channels s)
  let st := OPCodegen.writeAll st (OPCodegen.func_vars s)
  let st := OPCodegen.writeAll st (OPCodegen.func_end)
  let st ← OPCodegen.dedent st
  Except.ok (st, cgenNum + 1, { name := filename, contents := st.code })

/-! ## Extraction helpers for `generate` results -/

/-- Whether a `generate` run succeeded (no exception raised). -/
def genOk (r : Except String (GenState × Nat × FileWrite)) : Bool :=
  match r with
  | Except.ok _ => true
  | Except.error _ => false

/-- The state after a successful `generate` run (`OPCodegen.init` on error). -/
def genState (r : Except String (GenState × Nat × FileWrite)) : GenState :=
  match r with
  | Except.ok (st, _, _) => st
  | Except.error _ => OPCodegen.init

/-- The value of `op_set.CGEN_NUM` after a `generate` run (`0` on error). -/
def genNum (r : Except String (GenState × Nat × FileWrite)) : Nat :=
  match r with
  | Except.ok (_, n, _) => n
  | Except.error _ => 0

/-- The contents written to the output file by a `generate` run. -/
def genContents (r : Except String (GenState × Nat × FileWrite)) : List String :=
  match r with
  | Except.ok (_, _, fw) => fw.contents
  | Except.error _ => []

/-- The filename recorded by the file write of a `generate` run. -/
def genName (r : Except String (GenState × Nat × FileWrite)) : String :=
  match r with
  | Except.ok (_, _, fw) => fw.name
  | Except.error _ => ""

/-! ## Semantics of the emitted body

The generated function manipulates C `double complex` values; we model the
value of a complex expression as a pair of rationals (the float literal
`1e-15` of the emitted guard is modelled as the rational `10⁻¹⁵`).  The
external primitive `spmvpy` (which accumulates `coeff * (M_i · vec)` into
`out`, spec §4.3) is kept abstract: the interpreter below is parametric in a
function `spmv i coeff out` giving the updated buffer, so every theorem about
the interpreter holds for every behaviour of the primitive. -/

/-- A C `double complex` value: real and imaginary part. -/
structure CC where
  re : ℚ
  im : ℚ
deriving DecidableEq

/-- The guard tolerance `1e-15` of the emitted `if abs(td<i>) > 1e-15:`. -/
def tol : ℚ := 1 / 10 ^ 15

/-- Squared magnitude of a complex value; `abs c > tol` iff
`magSq c > tol ^ 2` since both sides of the former are nonnegative. -/
def magSq (c : CC) : ℚ := c.re ^ 2 + c.im ^ 2

/-- Semantics of the emitted guard `if abs(td<i>) > 1e-15:` on the coefficient
value `c`, in squared form. -/
def guardPasses (c : CC) : Bool := decide (tol ^ 2 < magSq c)

/-- Execution of the statements `termStmtLines (i, term)` on the accumulation
buffer `out`, where `c` is the complex value the `td<i>` expression evaluates
to and `spmv i c out` models the external `spmvpy` call for term `i`'s CSR
triple: the time-dependent branch runs the accumulation iff the guard passes,
the time-independent branch always accumulates with coefficient `1.0`. -/
def runTermStmts (spmv : Nat → CC → List CC → List CC) (c : CC)
    (it : Nat × HamTerm) (out : List CC) : List CC :=
  if it.2.isList || pyTruthy it.2.td then
    if guardPasses c then spmv it.1 c out else out
  else spmv it.1 { re := 1, im := 0 } out

/-- Execution of the whole term-accumulation block emitted by `func_vars`:
fold `runTermStmts` over the enumerated terms, `coeff i` being the value term
`i`'s expression evaluates to. -/
def runFuncVars (spmv : Nat → CC → List CC → List CC) (coeff : Nat → CC)
    (terms : List HamTerm) (out : List CC) : List CC :=
  (enumFrom 0 terms).foldl (fun o it => runTermStmts spmv (coeff it.1) it o) out

/-- The zero-initialized `out` buffer of length `num_rows` allocated by
`PyDataMem_NEW_ZEROED(num_rows, sizeof(complex))`. -/
def zeroVec (n : Nat) : List CC := List.replicate n { re := 0, im := 0 }

/-! ## Modelled filename derivation -/

/-- Modelled from the spec: the derivation of the output module/file name from
the process-wide generation counter.  The repository code that chooses the
`filename` argument of `generate` (the caller in the solver driver) is not
among the sources at hand; per the spec (§3, §4.1 "Naming/uniqueness"), "each
generation is tagged with a monotonically increasing generation counter used
to derive a unique module/file name".  We model the derivation as the base
name `rhs` followed by the decimal digits of the counter and the `.pyx`
extension. -/
def tdname (g : Nat) : String :=
  "rhs" ++ List.asString ((Nat.digits 10 g).reverse.map Nat.digitChar) ++ ".pyx"

/-! ## Helper lemmas -/

theorem catMap_append {α : Type} (f : α → String) :
    ∀ (l₁ l₂ : List α), catMap f (l₁ ++ l₂) = catMap f l₁ ++ catMap f l₂
  | [], l₂ => by simp [catMap]
  | x :: xs, l₂ => by
    rw [List.cons_append, catMap, catMap, catMap_append f xs l₂,
      String.append_assoc]

theorem catMap_map {α β : Type} (f : β → String) (g : α → β) :
    ∀ (l : List α), catMap f (l.map g) = catMap (fun x => f (g x)) l
  | [] => rfl
  | x :: xs => by rw [List.map_cons, catMap, catMap, catMap_map f g xs]

theorem enumFrom_length {α : Type} : ∀ (n : Nat) (l : List α),
    (enumFrom n l).length = l.length
  | _, [] => rfl
  | n, _ :: xs => by simp [enumFrom, enumFrom_length (n + 1) xs]

theorem enumFrom_get {α : Type} : ∀ (n : Nat) (l : List α) (i : Nat)
    (h : i < l.length),
    (enumFrom n l).get ⟨i, by rw [enumFrom_length]; exact h⟩ =
      (n + i, l.get ⟨i, h⟩)
  | n, x :: xs, 0, _ => by simp [enumFrom]
  | n, x :: xs, i + 1, h => by
    have ih := enumFrom_get (n + 1) xs i (by simpa using h)
    simpa [enumFrom, Nat.add_assoc, Nat.add_comm 1 i] using ih

/-- `writeAll` appends the lines, each indented at the current level, and
leaves the level unchanged. -/
theorem writeAll_eq : ∀ (lines : List String) (st : GenState),
    OPCodegen.writeAll st lines =
      { code := st.code ++ lines.map (fun l => strRepeat "    " st.level ++ l ++ "\n"),
        level := st.level }
  | [], st => by simp [OPCodegen.writeAll]
  | l :: ls, st => by
    have ih := writeAll_eq ls
      { code := st.code ++ [strRepeat "    " st.level ++ l ++ "\n"],
        level := st.level }
    simp only [OPCodegen.writeAll, List.foldl_cons] at ih ⊢
    rw [show OPCodegen.write st l =
      { code := st.code ++ [strRepeat "    " st.level ++ l ++ "\n"],
        level := st.level } from rfl, ih]
    simp

/-- One line of the written file: the emitted line `l` indented at level
`lvl`, with the final newline appended by `write`. -/
def indentLine (lvl : Nat) (l : String) : String :=
  strRepeat "    " lvl ++ l ++ "\n"

/-- The lines one `generate` call appends to `self.code` when the instance is
at indentation level `lvl`: preamble, checks and function header at `lvl`,
then the four body blocks at `lvl + 1`. -/
def genLines (inc : String) (s : OpSystem) (lvl : Nat) : List String :=
  (cython_preamble inc ++ cython_checks ++ OPCodegen.ODE_func_header s).map (indentLine lvl)
  ++ (func_header s ++ OPCodegen.channels s ++ OPCodegen.func_vars s ++
      OPCodegen.func_end).map (indentLine (lvl + 1))

/-- Master description of `generate`: it always succeeds (the single `dedent`
is balanced by the preceding `indent`), appends `genLines` to the accumulated
code, restores the indentation level, increments the counter, and writes the
whole accumulated code to `filename`. -/
theorem generate_eq (inc : String) (s : OpSystem) (st : GenState) (g : Nat)
    (filename : String) :
    OPCodegen.generate inc s st g filename =
      Except.ok ({ code := st.code ++ genLines inc s st.level, level := st.level },
        g + 1,
        { name := filename, contents := st.code ++ genLines inc s st.level }) := by
  simp only [OPCodegen.generate, writeAll_eq, OPCodegen.indent]
  simp only [OPCodegen.dedent, Nat.succ_ne_zero, if_false, Nat.add_sub_cancel]
  simp only [genLines, List.map_append, List.append_assoc]
  rfl

/-- The per-term local `td<i>` declarations contributed by `func_header`. -/
def termDeclLines (it : Nat × HamTerm) : List String :=
  if pyTruthy it.2.td then ["cdef double complex td" ++ Nat.repr it.1] else []

theorem func_vars_go : ∀ (l : List (Nat × HamTerm)) (acc : List String),
    l.foldl (fun acc it =>
      if it.2.isList || pyTruthy it.2.td then
        acc ++ ["td" ++ Nat.repr it.1 ++ " = " ++ pyStr it.2.td]
            ++ ["if abs(td" ++ Nat.repr it.1 ++ ") > 1e-15:"]
            ++ ["    " ++ spmvLine it.1 ("td" ++ Nat.repr it.1)]
      else acc ++ [spmvLine it.1 "1.0"]) acc = acc ++ l.flatMap termStmtLines
  | [], acc => by simp
  | it :: l, acc => by
    rw [List.foldl_cons, func_vars_go l, List.flatMap_cons]
    by_cases hc : (it.2.isList || pyTruthy it.2.td) = true
    · simp [hc, termStmtLines]
    · simp only [Bool.not_eq_true] at hc
      simp [hc, termStmtLines]

/-- Structure of `func_vars`: the comment followed by the per-term statement
groups, in term-list order. -/
theorem func_vars_eq (s : OpSystem) :
    OPCodegen.func_vars s =
      "# Eval the time-dependent terms and do SPMV." ::
        (enumFrom 0 s.system).flatMap termStmtLines := by
  unfold OPCodegen.func_vars
  rw [func_vars_go]
  simp

theorem channels_go : ∀ (l : List (String × Nat)) (acc : List String),
    l.foldl (fun acc p => acc ++ [chanStmt p.1 p.2]) acc =
      acc ++ l.map (fun p => chanStmt p.1 p.2)
  | [], acc => by simp
  | p :: l, acc => by
    rw [List.foldl_cons, channels_go l, List.map_cons]
    simp

/-- Structure of `channels`: a blank line, the comment, one `channel_value`
assignment per channel in insertion order, and a final blank line. -/
theorem channels_eq (s : OpSystem) :
    OPCodegen.channels s =
      ["", "# Compute complex channel values at time \x60t\x60"] ++
        s.channels.map (fun p => chanStmt p.1 p.2) ++ [""] := by
  unfold OPCodegen.channels
  simp only [channels_go]
  simp

theorem chan_decls_go : ∀ (l : List (String × Nat)) (acc : List String),
    l.foldl (fun acc p => acc ++ ["cdef double complex " ++ p.1]) acc =
      acc ++ l.map (fun p => "cdef double complex " ++ p.1)
  | [], acc => by simp
  | p :: l, acc => by
    rw [List.foldl_cons, chan_decls_go l, List.map_cons]
    simp

theorem td_decls_go : ∀ (l : List (Nat × HamTerm)) (acc : List String),
    l.foldl (fun acc it =>
      if pyTruthy it.2.td then acc ++ ["cdef double complex td" ++ Nat.repr it.1]
      else acc) acc = acc ++ l.flatMap termDeclLines
  | [], acc => by simp
  | it :: l, acc => by
    rw [List.foldl_cons, td_decls_go l, List.flatMap_cons]
    by_cases hc : pyTruthy it.2.td = true
    · simp [hc, termDeclLines]
    · simp only [Bool.not_eq_true] at hc
      simp [hc, termDeclLines]

/-- Structure of `func_header`: the fixed locals, a blank line, one complex
local per channel, then one `td<i>` local per term with truthy `term[1]`. -/
theorem func_header_eq (s : OpSystem) :
    func_header s =
      ["", "cdef size_t row", "cdef unsigned int num_rows = vec.shape[0]",
       "cdef double complex * " ++
         "out = <complex *>PyDataMem_NEW_ZEROED(num_rows,sizeof(complex))", ""] ++
      s.channels.map (fun p => "cdef double complex " ++ p.1) ++
      (enumFrom 0 s.system).flatMap termDeclLines := by
  unfold func_header
  simp only [chan_decls_go, td_decls_go]
  simp

/-! ## The argument-list view of the function header

`ODE_func_header` produces one flat string; the definitions below give the
same header as a list of argument declarations (grouped into the "chunks"
that share one source line), and `claim_C1_signature` proves that rendering
these chunks reproduces the emitted string exactly. -/

/-- The CSR argument triple declared for term `k`. -/
def termArgTriple (k : Nat) : List String :=
  ["complex[::1] data" ++ Nat.repr k, "int[::1] idx" ++ Nat.repr k,
   "int[::1] ptr" ++ Nat.repr k]

/-- The two per-channel argument declarations for channel `p`. -/
def chanArgPair (p : String × Nat) : List String :=
  ["double[::1] " ++ p.1 ++ "_pulses", "double[::1] " ++ p.1 ++ "_fc"]

/-- The argument declarations of the emitted header, grouped by source line:
a term's CSR triple shares one line, every other argument has its own line. -/
def argChunks (s : OpSystem) : List (List String) :=
  [["double t"], ["complex[::1] vec"]]
  ++ (List.range s.system.length).map termArgTriple
  ++ [["complex[::1] pulse_array"], ["unsigned int[::1] pulse_indices"]]
  ++ s.channels.flatMap (fun p =>
      [["double[::1] " ++ p.1 ++ "_pulses"], ["double[::1] " ++ p.1 ++ "_fc"]])
  ++ s.vars.map (fun key => ["complex " ++ key])
  ++ [["unsigned char[::1] register"]]

/-- The flat list of argument declarations of the emitted header, in order. -/
def ODE_func_args (s : OpSystem) : List String := (argChunks s).flatten

/-- `", "`-separated rendering of the declarations sharing one line. -/
def commaJoin : List String → String
  | [] => ""
  | [x] => x
  | x :: xs => x ++ ", " ++ commaJoin xs

/-- Rendering of the chunked argument list between the parentheses of the
header: every chunk on its own `"\n        "`-indented line, chunks after the
first preceded by a comma. -/
def headerArgsText : List (List String) → String
  | [] => ""
  | c :: cs =>
    "\n        " ++ commaJoin c ++ catMap (fun ch => ",\n        " ++ commaJoin ch) cs

theorem hdr_terms_go : ∀ (l : List Nat) (a : String),
    l.foldl (fun acc k =>
      acc ++ (",\n        " ++ "complex[::1] data" ++ Nat.repr k ++ ", " ++
              "int[::1] idx" ++ Nat.repr k ++ ", " ++
              "int[::1] ptr" ++ Nat.repr k)) a =
      a ++ catMap (fun k => ",\n        " ++ commaJoin (termArgTriple k)) l
  | [], a => by simp [catMap]
  | k :: l, a => by
    rw [List.foldl_cons, hdr_terms_go l, catMap]
    simp only [termArgTriple, commaJoin, String.append_assoc]

theorem hdr_chans_go : ∀ (l : List (String × Nat)) (a : String),
    l.foldl (fun acc p =>
      acc ++ (",\n        " ++ "double[::1] " ++ p.1 ++ "_pulses")
          ++ (",\n        " ++ "double[::1] " ++ p.1 ++ "_fc")) a =
      a ++ catMap (fun p => (",\n        " ++ ("double[::1] " ++ p.1 ++ "_pulses"))
          ++ (",\n        " ++ ("double[::1] " ++ p.1 ++ "_fc"))) l
  | [], a => by simp [catMap]
  | p :: l, a => by
    rw [List.foldl_cons, hdr_chans_go l, catMap]
    simp only [String.append_assoc]

theorem hdr_vars_go : ∀ (l : List String) (a : String),
    l.foldl (fun acc key => acc ++ (",\n        " ++ "complex " ++ key)) a =
      a ++ catMap (fun key => ",\n        " ++ ("complex " ++ key)) l
  | [], a => by simp [catMap]
  | key :: l, a => by
    rw [List.foldl_cons, hdr_vars_go l, catMap]
    simp only [String.append_assoc]

theorem catMap_flatMap {α β : Type} (f : List β → String) (g : α → List (List β)) :
    ∀ (l : List α), catMap f (l.flatMap g) = catMap (fun x => catMap f (g x)) l
  | [] => rfl
  | x :: xs => by
    rw [List.flatMap_cons, catMap_append, catMap, catMap_flatMap f g xs]

theorem flatten_flatMap {α β : Type} (g : α → List (List β)) :
    ∀ (l : List α), (l.flatMap g).flatten = l.flatMap (fun x => (g x).flatten)
  | [] => rfl
  | x :: xs => by
    rw [List.flatMap_cons, List.flatten_append, List.flatMap_cons,
      flatten_flatMap g xs]

theorem vars_args_go : ∀ (l : List String),
    (l.flatMap fun key => ["complex " ++ key]) = l.map fun key => "complex " ++ key
  | [] => rfl
  | key :: l => by rw [List.flatMap_cons, List.map_cons, vars_args_go l]; rfl

theorem length_flatMap_termArgTriple : ∀ (l : List Nat),
    (l.flatMap termArgTriple).length = 3 * l.length
  | [] => rfl
  | x :: xs => by
    rw [List.flatMap_cons, List.length_append, length_flatMap_termArgTriple xs]
    simp [termArgTriple, List.length_cons, Nat.mul_add, Nat.mul_succ]
    omega

theorem length_flatMap_chanArgPair : ∀ (l : List (String × Nat)),
    (l.flatMap chanArgPair).length = 2 * l.length
  | [] => rfl
  | x :: xs => by
    rw [List.flatMap_cons, List.length_append, length_flatMap_chanArgPair xs]
    simp [chanArgPair, List.length_cons, Nat.mul_add, Nat.mul_succ]
    omega

/-- **C1.** For every `OpSystem`, the emitted function header is exactly the
rendering of the argument-declaration list `ODE_func_args` (chunked per
source line by `argChunks`); that list is, in order: `t`, `vec`, one CSR
`data<k>`/`idx<k>`/`ptr<k>` triple per Hamiltonian term, `pulse_array`,
`pulse_indices`, one `<name>_pulses`/`<name>_fc` pair per channel in
insertion order, one complex scalar per free variable in insertion order,
and `register`; and its length is
`2 + 3·#terms + 2 + 2·#channels + #vars + 1`. -/
theorem claim_C1_signature (s : OpSystem) :
    OPCodegen.ODE_func_header s =
      ["def cy_td_ode_rhs(" ++ headerArgsText (argChunks s) ++ "):"] ∧
    ODE_func_args s =
      ["double t", "complex[::1] vec"]
      ++ (List.range s.system.length).flatMap termArgTriple
      ++ ["complex[::1] pulse_array", "unsigned int[::1] pulse_indices"]
      ++ s.channels.flatMap chanArgPair
      ++ s.vars.map (fun key => "complex " ++ key)
      ++ ["unsigned char[::1] register"] ∧
    (ODE_func_args s).length =
      2 + 3 * s.system.length + 2 + 2 * s.channels.length + s.vars.length + 1 := by
  have hargs : ODE_func_args s =
      ["double t", "complex[::1] vec"]
      ++ (List.range s.system.length).flatMap termArgTriple
      ++ ["complex[::1] pulse_array", "unsigned int[::1] pulse_indices"]
      ++ s.channels.flatMap chanArgPair
      ++ s.vars.map (fun key => "complex " ++ key)
      ++ ["unsigned char[::1] register"] := by
    simp only [ODE_func_args, argChunks, List.flatten_append, List.cons_append,
      List.nil_append, List.flatten_cons, List.flatten_nil, ← List.flatMap_def,
      flatten_flatMap]
    rw [show (fun x : String × Nat =>
      ["double[::1] " ++ x.1 ++ "_pulses", "double[::1] " ++ x.1 ++ "_fc"]) =
      chanArgPair from rfl, vars_args_go]
  refine ⟨?_, hargs, ?_⟩
  · simp only [OPCodegen.ODE_func_header]
    rw [show ("\n        double t" : String) ++ ",\n        complex[::1] vec" =
      ("\n        " ++ "double t") ++ (",\n        " ++ "complex[::1] vec") from rfl]
    rw [hdr_terms_go, hdr_chans_go, hdr_vars_go]
    simp only [argChunks, headerArgsText, List.cons_append, List.nil_append,
      catMap_append, catMap_map, catMap_flatMap, catMap, commaJoin,
      String.append_assoc]
    simp
  · rw [hargs]
    simp only [List.length_append, length_flatMap_termArgTriple,
      length_flatMap_chanArgPair, List.length_map, List.length_range,
      List.length_cons, List.length_nil]


/-! ## Further helper lemmas -/

theorem strRepeat_spaces : ∀ n : Nat,
    strRepeat "    " n = String.mk (List.replicate (4 * n) ' ')
  | 0 => rfl
  | n + 1 => by
    rw [strRepeat, strRepeat_spaces n]
    rw [show 4 * (n + 1) = 4 + 4 * n by ring]
    rw [List.replicate_add]
    rfl

theorem digitChar_injOn :
    ∀ a, a < 10 → ∀ b, b < 10 → Nat.digitChar a = Nat.digitChar b → a = b := by
  decide

theorem map_digitChar_inj : ∀ (l₁ l₂ : List Nat),
    (∀ d ∈ l₁, d < 10) → (∀ d ∈ l₂, d < 10) →
    l₁.map Nat.digitChar = l₂.map Nat.digitChar → l₁ = l₂
  | [], [], _, _, _ => rfl
  | [], _ :: _, _, _, h => by simp at h
  | _ :: _, [], _, _, h => by simp at h
  | a :: l₁, b :: l₂, h1, h2, h => by
    simp only [List.map_cons, List.cons.injEq] at h
    have ha : a < 10 := h1 a (by simp)
    have hb : b < 10 := h2 b (by simp)
    have hab := digitChar_injOn a ha b hb h.1
    have hrest := map_digitChar_inj l₁ l₂ (fun d hd => h1 d (by simp [hd]))
      (fun d hd => h2 d (by simp [hd])) h.2
    rw [hab, hrest]

/-- The modelled filename derivation is injective: distinct generation-counter
values give distinct module/file names. -/
theorem tdname_injective (g₁ g₂ : Nat) (h : tdname g₁ = tdname g₂) : g₁ = g₂ := by
  unfold tdname at h
  have hd := congrArg String.data h
  simp only [String.data_append] at hd
  rw [show ∀ l : List Char, (List.asString l).data = l from fun _ => rfl,
      show ∀ l : List Char, (List.asString l).data = l from fun _ => rfl] at hd
  have h2 := List.append_cancel_left (List.append_cancel_right hd)
  have h3 := map_digitChar_inj _ _
    (fun d hd' => Nat.digits_lt_base (by norm_num) (List.mem_reverse.mp hd'))
    (fun d hd' => Nat.digits_lt_base (by norm_num) (List.mem_reverse.mp hd')) h2
  exact Nat.digits.injective 10 (List.reverse_injective h3)

/-! ## The claims -/

/-- **C9.** The emitter's indentation level can never go negative: `dedent`
at level `0` raises immediately instead of decrementing, `dedent` at a
positive level decrements by one, and every line appended by `write` is
prefixed with exactly `4 × level` spaces. -/
theorem claim_C9_indent_discipline (st : GenState) (line : String) :
    (st.level = 0 →
      OPCodegen.dedent st = Except.error "Error in code generator") ∧
    (st.level ≠ 0 →
      OPCodegen.dedent st = Except.ok { code := st.code, level := st.level - 1 }) ∧
    OPCodegen.write st line =
      { code := st.code ++
          [String.mk (List.replicate (4 * st.level) ' ') ++ line ++ "\n"],
        level := st.level } := by
  refine ⟨fun h => by simp [OPCodegen.dedent, h],
          fun h => by simp [OPCodegen.dedent, h], ?_⟩
  rw [OPCodegen.write, strRepeat_spaces]

theorem claim_C9_indent_discipline_witness :
    ((0 : Nat) = 0 ∧
      OPCodegen.dedent { code := [], level := 0 } =
        Except.error "Error in code generator") ∧
    ((2 : Nat) ≠ 0 ∧
      OPCodegen.dedent { code := [], level := 2 } =
        Except.ok { code := [], level := 1 }) ∧
    OPCodegen.write { code := [], level := 2 } "x" =
      { code := [String.mk (List.replicate 8 ' ') ++ "x" ++ "\n"], level := 2 } :=
  ⟨⟨rfl, (claim_C9_indent_discipline { code := [], level := 0 } "x").1 rfl⟩,
   ⟨by decide, (claim_C9_indent_discipline { code := [], level := 2 } "x").2.1 (by decide)⟩,
   by simpa using (claim_C9_indent_discipline { code := [], level := 2 } "x").2.2⟩

/-- **C10.** `generate` is not idempotent on one instance: it only ever
appends to the instance's `code` list and never resets it.  On a fresh
instance the first call writes exactly `genLines`; a second call on the same
instance writes a file whose contents are the first artifact followed by a
second copy of the preamble and function definition.  (Only the first call on
a fresh instance yields a single copy.) -/
theorem claim_C10_not_idempotent (inc : String) (s : OpSystem) (g : Nat)
    (f₁ f₂ : String) :
    genContents (OPCodegen.generate inc s OPCodegen.init g f₁) = genLines inc s 0 ∧
    genState (OPCodegen.generate inc s OPCodegen.init g f₁) =
      { code := genLines inc s 0, level := 0 } ∧
    genContents (OPCodegen.generate inc s
        (genState (OPCodegen.generate inc s OPCodegen.init g f₁))
        (genNum (OPCodegen.generate inc s OPCodegen.init g f₁)) f₂) =
      genLines inc s 0 ++ genLines inc s 0 := by
  simp [generate_eq, genContents, genState, genNum, OPCodegen.init]

/-- **C3.** Each `generate` call increments the process-wide counter
`CGEN_NUM` by one; with the (spec-modelled) counter-derived filename
`tdname`, generations at distinct counter values write to distinct names, so
successive generations never overwrite each other; and re-generating the same
model on a fresh instance at the incremented counter yields a file with a
distinct name but contents identical to the first artifact. -/
theorem claim_C3_generation_counter (inc : String) (s : OpSystem) (g g₂ : Nat)
    (hne : g ≠ g₂) :
    genNum (OPCodegen.generate inc s OPCodegen.init g (tdname g)) = g + 1 ∧
    tdname g ≠ tdname g₂ ∧
    genName (OPCodegen.generate inc s OPCodegen.init g (tdname g)) = tdname g ∧
    genContents (OPCodegen.generate inc s OPCodegen.init g (tdname g)) =
      genContents (OPCodegen.generate inc s OPCodegen.init g₂ (tdname g₂)) := by
  refine ⟨?_, fun h => hne (tdname_injective _ _ h), ?_, ?_⟩ <;>
    simp [generate_eq, genNum, genName, genContents]

theorem claim_C3_generation_counter_witness :
    (0 : Nat) ≠ 1 ∧ tdname 0 ≠ tdname 1 :=
  ⟨by decide,
   (claim_C3_generation_counter "" { system := [], channels := [], vars := [], dt := 1 }
      0 1 (by decide)).2.1⟩

/-- **C6.** The emitted body contains exactly one channel-evaluation
statement per channel, in insertion order (structure of `channels`), each of
the exact emitted form (the `chanStmt` equation), and the whole channels
block is placed before the whole term-accumulation block in the written file
(the `genContents` decomposition), the latter holding every `spmvpy`
statement (structure of `func_vars`) — irrespective of which channels the
term expressions reference. -/
theorem claim_C6_channel_statements (inc : String) (s : OpSystem) (g : Nat)
    (f : String) :
    OPCodegen.channels s =
      ["", "# Compute complex channel values at time \x60t\x60"] ++
        s.channels.map (fun p => chanStmt p.1 p.2) ++ [""] ∧
    chanStmt = (fun chan idx =>
      chan ++ " = channel_value(t, " ++ Nat.repr idx ++ ", " ++
      chan ++ "_pulses,  pulse_array, pulse_indices, " ++
      chan ++ "_fc, register)") ∧
    genContents (OPCodegen.generate inc s OPCodegen.init g f) =
      (cython_preamble inc ++ cython_checks ++ OPCodegen.ODE_func_header s).map
          (indentLine 0)
        ++ (func_header s).map (indentLine 1)
        ++ (OPCodegen.channels s).map (indentLine 1)
        ++ (OPCodegen.func_vars s).map (indentLine 1)
        ++ OPCodegen.func_end.map (indentLine 1) ∧
    OPCodegen.func_vars s =
      "# Eval the time-dependent terms and do SPMV." ::
        (enumFrom 0 s.system).flatMap termStmtLines := by
  refine ⟨channels_eq s, rfl, ?_, func_vars_eq s⟩
  simp [generate_eq, genContents, OPCodegen.init, genLines, List.map_append,
    List.append_assoc]

/-- **C7.** A term that is not a Python list and whose `term[1]` is falsy
(i.e. a term without a time-dependence tag) contributes exactly the single
unguarded `spmvpy` accumulation statement with scalar coefficient `1.0` and
its own CSR triple `data<i>`/`idx<i>`/`ptr<i>`; within `func_vars` the
statement groups appear in term-list order (the `i`-th group of the `flatMap`
comes from the `i`-th term). -/
theorem claim_C7_time_independent_term (s : OpSystem) (i : Nat)
    (h : i < s.system.length)
    (hL : (s.system[i]).isList = false)
    (hT : pyTruthy (s.system[i]).td = false) :
    termStmtLines (i, s.system[i]) = [spmvLine i "1.0"] ∧
    spmvLine i "1.0" =
      "spmvpy(&data" ++ Nat.repr i ++ "[0], &idx" ++ Nat.repr i ++ "[0], &ptr" ++
        Nat.repr i ++ "[0], " ++ "&vec[0], " ++ "1.0" ++ ", &out[0], num_rows)" ∧
    OPCodegen.func_vars s =
      "# Eval the time-dependent terms and do SPMV." ::
        (enumFrom 0 s.system).flatMap termStmtLines ∧
    (enumFrom 0 s.system).get ⟨i, by rw [enumFrom_length]; exact h⟩ =
      (i, s.system[i]) := by
  refine ⟨?_, rfl, func_vars_eq s, ?_⟩
  · simp [termStmtLines, hL, hT]
  · simpa using enumFrom_get 0 s.system i h

theorem claim_C7_time_independent_term_witness :
    ((0 : Nat) < 1 ∧ HamTerm.isList ⟨false, none⟩ = false ∧
      pyTruthy (HamTerm.td ⟨false, none⟩) = false) ∧
    termStmtLines (0, ⟨false, none⟩) = [spmvLine 0 "1.0"] :=
  ⟨⟨by decide, rfl, rfl⟩,
   (claim_C7_time_independent_term
      { system := [⟨false, none⟩], channels := [], vars := [], dt := 1 } 0
      (by decide) (by decide) (by decide)).1⟩

/-- **C2.** A term carrying a time-dependence expression gets exactly the
three-line group: the `td<i>` assignment of its coefficient expression, the
guard `if abs(td<i>) > 1e-15:`, and the indented `spmvpy` accumulation; and
under the guard's semantics the accumulation runs iff the coefficient's
magnitude exceeds `1e-15`: magnitude ≤ `1e-15` (i.e. `magSq ≤ tol²`) leaves
the output buffer unchanged, magnitude > `1e-15` applies the accumulation
primitive. -/
theorem claim_C2_td_guard (s : OpSystem) (i : Nat) (h : i < s.system.length)
    (hT : pyTruthy (s.system[i]).td = true)
    (spmv : Nat → CC → List CC → List CC) (c : CC) (out : List CC) :
    termStmtLines (i, s.system[i]) =
      ["td" ++ Nat.repr i ++ " = " ++ pyStr (s.system[i]).td,
       "if abs(td" ++ Nat.repr i ++ ") > 1e-15:",
       "    " ++ spmvLine i ("td" ++ Nat.repr i)] ∧
    (magSq c ≤ tol ^ 2 → runTermStmts spmv c (i, s.system[i]) out = out) ∧
    (tol ^ 2 < magSq c →
      runTermStmts spmv c (i, s.system[i]) out = spmv i c out) := by
  refine ⟨?_, ?_, ?_⟩
  · simp [termStmtLines, hT]
  · intro hle
    simp [runTermStmts, hT, guardPasses, not_lt.mpr hle]
  · intro hlt
    simp [runTermStmts, hT, guardPasses, hlt]

theorem claim_C2_td_guard_witness :
    ((0 : Nat) < 1 ∧ pyTruthy (HamTerm.td ⟨false, some "X"⟩) = true ∧
      magSq ⟨0, 0⟩ ≤ tol ^ 2) ∧
    runTermStmts (fun _ c o => c :: o) ⟨0, 0⟩ (0, ⟨false, some "X"⟩) [] = [] :=
  ⟨⟨by decide, by decide, by simpa [magSq] using sq_nonneg tol⟩,
   (claim_C2_td_guard
      { system := [⟨false, some "X"⟩], channels := [], vars := [], dt := 1 } 0
      (by decide) (by decide) (fun _ c o => c :: o) ⟨0, 0⟩ []).2.1
      (by simpa [magSq] using sq_nonneg tol)⟩

/-- **C8.** For a model with an empty term list, generation still succeeds
and writes the usual header and blocks; the accumulation block is just its
comment (no `spmvpy` call, no `td<i>` assignment), the locals block has no
`td<i>` declaration, and the kernel's semantics returns the zero-initialized
`out` buffer of length `num_rows` unchanged — a zero vector — for every
behaviour of the accumulation primitive, every coefficient valuation and
every input state and time. -/
theorem claim_C8_empty_term_list (inc : String) (g : Nat) (f : String)
    (sys : OpSystem) (hs : sys.system = [])
    (spmv : Nat → CC → List CC → List CC) (coeff : Nat → CC) (n : Nat) :
    genOk (OPCodegen.generate inc sys OPCodegen.init g f) = true ∧
    genContents (OPCodegen.generate inc sys OPCodegen.init g f) =
      genLines inc sys 0 ∧
    OPCodegen.func_vars sys = ["# Eval the time-dependent terms and do SPMV."] ∧
    func_header sys =
      ["", "cdef size_t row", "cdef unsigned int num_rows = vec.shape[0]",
       "cdef double complex * " ++
         "out = <complex *>PyDataMem_NEW_ZEROED(num_rows,sizeof(complex))", ""] ++
      sys.channels.map (fun p => "cdef double complex " ++ p.1) ∧
    runFuncVars spmv coeff sys.system (zeroVec n) = zeroVec n ∧
    (zeroVec n).length = n := by
  refine ⟨by simp [generate_eq, genOk],
          by simp [generate_eq, genContents, OPCodegen.init], ?_, ?_, ?_,
          by simp [zeroVec]⟩
  · rw [func_vars_eq, hs]; rfl
  · rw [func_header_eq, hs]; simp [enumFrom]
  · rw [hs]; rfl

theorem claim_C8_empty_term_list_witness :
    (OpSystem.system { system := [], channels := [("d0", 0)], vars := ["v"], dt := 1 } = []) ∧
    OPCodegen.func_vars { system := [], channels := [("d0", 0)], vars := ["v"], dt := 1 } =
      ["# Eval the time-dependent terms and do SPMV."] ∧
    runFuncVars (fun _ c o => c :: o) (fun _ => ⟨1, 0⟩) [] (zeroVec 2) = zeroVec 2 :=
  ⟨rfl,
   (claim_C8_empty_term_list "I" 0 "rhs.pyx"
      { system := [], channels := [("d0", 0)], vars := ["v"], dt := 1 } rfl
      (fun _ c o => c :: o) (fun _ => ⟨1, 0⟩) 2).2.2.1,
   (claim_C8_empty_term_list "I" 0 "rhs.pyx"
      { system := [], channels := [("d0", 0)], vars := ["v"], dt := 1 } rfl
      (fun _ c o => c :: o) (fun _ => ⟨1, 0⟩) 2).2.2.2.2.1⟩

/-- A `td<i> = ...` assignment line is never equal to a `spmvpy(...)` line:
their first characters differ. -/
theorem td_ne_spmv (a b : String) : ("td" ++ a) ≠ ("spmvpy(&data" ++ b) := by
  intro hcontra
  have h2 := congrArg String.data hcontra
  rw [String.data_append, String.data_append] at h2
  simp at h2

/-- **C4 (corrected).** The generator performs no identifier validation at
all: `generate` succeeds on every `OpSystem` (it can only raise through the
always-balanced `dedent`), and every channel name — reserved or not — is
spliced verbatim into the artifact, which therefore contains a local
declaration `cdef double complex <name>` for each channel name. -/
theorem claim_C4_no_name_validation (inc : String) (s : OpSystem) (g : Nat)
    (f : String) (c : String) (hc : c ∈ s.channels.map Prod.fst) :
    genOk (OPCodegen.generate inc s OPCodegen.init g f) = true ∧
    indentLine 1 ("cdef double complex " ++ c) ∈
      genContents (OPCodegen.generate inc s OPCodegen.init g f) := by
  refine ⟨by simp [generate_eq, genOk], ?_⟩
  rcases List.mem_map.mp hc with ⟨p, hp, hpc⟩
  have h1 : ("cdef double complex " ++ c) ∈ func_header s := by
    rw [func_header_eq]
    refine List.mem_append_left _ (List.mem_append_right _ ?_)
    exact List.mem_map.mpr ⟨p, hp, by rw [hpc]⟩
  have h2 : ("cdef double complex " ++ c) ∈
      (func_header s ++ OPCodegen.channels s ++ OPCodegen.func_vars s ++
        OPCodegen.func_end) :=
    List.mem_append_left _ (List.mem_append_left _ (List.mem_append_left _ h1))
  have h3 := List.mem_map_of_mem (indentLine 1) h2
  simp only [generate_eq, genContents, genLines, OPCodegen.init, List.nil_append]
  exact List.mem_append_right _ h3

theorem claim_C4_no_name_validation_witness :
    ("vec" ∈ (OpSystem.channels
        { system := [], channels := [("vec", 0)], vars := [], dt := 1 }).map Prod.fst) ∧
    genOk (OPCodegen.generate "I"
        { system := [], channels := [("vec", 0)], vars := [], dt := 1 }
        OPCodegen.init 0 "rhs.pyx") = true :=
  ⟨by decide,
   (claim_C4_no_name_validation "I"
      { system := [], channels := [("vec", 0)], vars := [], dt := 1 } 0 "rhs.pyx"
      "vec" (by decide)).1⟩

/-- **C4, counterexample to the claim as stated.** A channel named `vec`
collides with the reserved state-vector argument, yet generation succeeds and
the written artifact contains the colliding declaration
`cdef double complex vec` — generation does not fail before writing. -/
theorem claim_C4_counterexample :
    genOk (OPCodegen.generate "I"
        { system := [], channels := [("vec", 0)], vars := [], dt := 1 }
        OPCodegen.init 0 "rhs.pyx") = true ∧
    "    cdef double complex vec\n" ∈
      genContents (OPCodegen.generate "I"
        { system := [], channels := [("vec", 0)], vars := [], dt := 1 }
        OPCodegen.init 0 "rhs.pyx") := by
  constructor
  · simp [generate_eq, genOk]
  · decide

/-- **C5 (corrected).** The locals block declares `cdef double complex td<i>`
for term `i` iff `term[1]` is truthy, while the body emits the `td<i> = ...`
assignment for term `i` iff the term is a Python `list` **or** `term[1]` is
truthy; the two predicates agree on every non-`list` term but differ on a
`list`-shaped term with falsy `term[1]`, which gets an assignment with no
declaration. -/
theorem claim_C5_decl_assign_predicates (s : OpSystem) (i : Nat)
    (h : i < s.system.length) :
    func_header s =
      ["", "cdef size_t row", "cdef unsigned int num_rows = vec.shape[0]",
       "cdef double complex * " ++
         "out = <complex *>PyDataMem_NEW_ZEROED(num_rows,sizeof(complex))", ""] ++
      s.channels.map (fun p => "cdef double complex " ++ p.1) ++
      (enumFrom 0 s.system).flatMap termDeclLines ∧
    OPCodegen.func_vars s =
      "# Eval the time-dependent terms and do SPMV." ::
        (enumFrom 0 s.system).flatMap termStmtLines ∧
    (termDeclLines (i, s.system[i]) ≠ [] ↔ pyTruthy (s.system[i]).td = true) ∧
    ((("td" ++ Nat.repr i ++ " = " ++ pyStr (s.system[i]).td) ∈
        termStmtLines (i, s.system[i])) ↔
      ((s.system[i]).isList || pyTruthy (s.system[i]).td) = true) := by
  refine ⟨func_header_eq s, func_vars_eq s, ?_, ?_⟩
  · by_cases ht : pyTruthy (s.system[i]).td = true
    · simp [termDeclLines, ht]
    · simp only [Bool.not_eq_true] at ht
      simp [termDeclLines, ht]
  · by_cases hc : ((s.system[i]).isList || pyTruthy (s.system[i]).td) = true
    · simp [termStmtLines, hc]
    · simp only [Bool.not_eq_true] at hc
      simp only [termStmtLines, hc, Bool.false_eq_true, if_false,
        List.mem_singleton, iff_false]
      intro hcontra
      simp only [spmvLine, String.append_assoc] at hcontra
      exact td_ne_spmv _ _ hcontra

theorem claim_C5_decl_assign_predicates_witness :
    (0 : Nat) < 1 ∧
    (termDeclLines (0, ⟨false, some "f(t)"⟩) ≠ [] ↔
      pyTruthy (HamTerm.td ⟨false, some "f(t)"⟩) = true) :=
  ⟨by decide,
   (claim_C5_decl_assign_predicates
      { system := [⟨false, some "f(t)"⟩], channels := [], vars := [], dt := 1 } 0
      (by decide)).2.2.1⟩

/-- **C5, counterexample to the claim as stated.** For a `list`-shaped term
with falsy `term[1]` (here `None`), the emitted body contains the assignment
`td0 = None` while the emitted locals contain no declaration
`cdef double complex td0`: the header and body predicates disagree. -/
theorem claim_C5_counterexample :
    ("td0 = None" ∈ OPCodegen.func_vars
        { system := [⟨true, none⟩], channels := [], vars := [], dt := 1 }) ∧
    "cdef double complex td0" ∉ func_header
        { system := [⟨true, none⟩], channels := [], vars := [], dt := 1 } := by
  decide

end AerCodegen
